import Mathlib

/-!
Shallow embedding of `src/LivingCity/traffic/traffic_simulator.cpp` (namespace `LC`):
route assignment (`route_finding_`), the GPU simulation driver loop (`simulateInGPU`)
modelled as an event trace, and the snapshot writers (`save_edges`, `save_agents`).

External collaborators (Network, the contraction-hierarchy routing index, Lanemap,
the CUDA device surface, the file system) are modelled at their interfaces: the
routing index's batch result is a parameter (`node_sequence`), device calls and
file writes become trace events / returned records.
-/

namespace LC

/-- An agent of the OD population (fields as used by `traffic_simulator.cpp`).
The fixed-capacity route buffer `route` of the C++ agent struct is modelled as a
total map from buffer index to merged-edge id; `route_size` is the write cursor.
`cum_length` and `cum_v` are the floating-point running statistics, modelled
as rationals. -/
structure Agent where
  init_intersection : Nat
  end_intersection : Nat
  agent_type : Nat
  active : Nat
  route : Nat → Nat
  route_size : Nat
  cum_length : ℚ
  cum_v : ℚ
  num_steps : Nat
  slow_down_steps : Nat
  num_lane_change : Nat
  num_steps_in_queue : Nat

/-- The Network collaborator, at the interface `route_finding_` consumes:
`edge_id u v` is the graph-edge id of the ordered vertex pair `(u, v)`
(`network_->edge_id(vertex_from, vertex_to)`), and `edge_vertices e` resolves a
graph-edge id back to its ordered vertex pair (the edge list the network stores). -/
structure Network where
  edge_id : Nat → Nat → Nat
  edge_vertices : Nat → Nat × Nat

/-- Diagnostic warnings `route_finding_` prints to `std::cerr`:
`longRoute i n` is the "Agent i need to go through n edges!" message (path length
over 100), `noRoute i` is the "Agent i has no route!" message. -/
inductive Warning where
  | longRoute : Nat → Nat → Warning
  | noRoute : Nat → Warning
deriving DecidableEq

/-- One execution of `agent.route[agent.route_size] = mid; agent.route_size++;`
(traffic_simulator.cpp:53-54).  The write is NOT bounds-checked in the source:
the index `route_size` is used whatever its value. -/
def appendMid (a : Agent) (mid : Nat) : Agent :=
  { a with route := Function.update a.route a.route_size mid,
           route_size := a.route_size + 1 }

/-- The inner loop of `route_finding_` (traffic_simulator.cpp:48-55): for each
consecutive vertex pair of the path, resolve the graph-edge id via the network,
map it to a merged-edge id via `eid2mid`, and append it to the agent's buffer.
`path.zip path.tail` is exactly the list of pairs `(path[j], path[j+1])`
for `j < path.length - 1`. -/
def writeRoute (net : Network) (eid2mid : Nat → Nat) (path : List Nat) (a : Agent) : Agent :=
  (path.zip path.tail).foldl (fun acc uv => appendMid acc (eid2mid (net.edge_id uv.1 uv.2))) a

/-- The (vertex_from, vertex_to) pairs on which the body of the `j` loop of
`route_finding_` calls `network_->edge_id`: none when the path is empty (that
branch is guarded out), otherwise the consecutive pairs of the path. -/
def resolvedEdgePairs (path : List Nat) : List (Nat × Nat) :=
  if path.length = 0 then [] else path.zip path.tail

/-- The body of the per-agent loop of `route_finding_` (traffic_simulator.cpp:39-57)
for one agent: emit the over-100 warning if the path is long, then either emit the
no-route warning (empty path, agent untouched) or write the route. -/
def processAgent (net : Network) (eid2mid : Nat → Nat) (i : Nat) (path : List Nat)
    (a : Agent) : Agent × List Warning :=
  let w1 : List Warning :=
    if 100 < path.length then [Warning.longRoute i path.length] else []
  if path.length = 0 then (a, w1 ++ [Warning.noRoute i])
  else (writeRoute net eid2mid path a, w1)

/-- The per-agent loop of `route_finding_`, threading the running agent index.
The C++ loop runs over `node_sequence`; agents beyond its length are untouched
(the routing index returns one result per agent, so the lists match in practice). -/
def routeLoop (net : Network) (eid2mid : Nat → Nat) :
    Nat → List (List Nat) → List Agent → List Agent × List Warning
  | _, [], agents => (agents, [])
  | _, _ :: _, [] => ([], [])
  | i, p :: ps, a :: as =>
      let pa := processAgent net eid2mid i p a
      let rest := routeLoop net eid2mid (i + 1) ps as
      (pa.1 :: rest.1, pa.2 ++ rest.2)

/-- `TrafficSimulator::route_finding_` (traffic_simulator.cpp:21-58).  The
contraction-hierarchy build and the batch `Routes` query are external
(the RoutingIndex collaborator); `node_sequence` is its result, one ordered
vertex sequence per agent.  Returns the updated population and the warnings
printed to `std::cerr`, in order. -/
def route_finding_ (net : Network) (eid2mid : Nat → Nat)
    (node_sequence : List (List Nat)) (agents : List Agent) :
    List Agent × List Warning :=
  routeLoop net eid2mid 0 node_sequence agents

/-- Observable events of `TrafficSimulator::simulateInGPU` (traffic_simulator.cpp:64-129):
device calls and snapshot writes, in program order.  `checkpoint s t` stands for the
pair `save_edges(startTime); save_agents(startTime)` performed after step `s` at
simulated time `t`; `fault` marks the undefined evaluation
`simulations_steps % num_save_steps` when `num_save_steps == 0` (modulo by zero
is undefined behaviour in C++). -/
inductive Event where
  | initCuda : Event
  | cudaSimulate : ℚ → Event
  | cudaGetData : Nat → Event
  | checkpoint : Nat → ℚ → Event
  | fault : Event
  | finishCuda : Event
deriving DecidableEq

/-- Number of iterations of `while (startTime < endTime)` when each iteration
advances time by `dt` (exact rational arithmetic): the least `n` with
`startT + n * dt >= endT`, i.e. the ceiling of `(endT - startT) / dt`, for `dt > 0`. -/
def numSimSteps (dt startT endT : ℚ) : Nat :=
  (Int.ceil ((endT - startT) / dt)).toNat

/-- `int num_save_steps = save_interval / deltaTime_;` (traffic_simulator.cpp:110):
the float quotient truncated to int, i.e. `floor(save_interval / deltaTime)` for the
non-negative values the configuration supplies. -/
def checkpointInterval (si : Nat) (dt : ℚ) : Nat :=
  (Int.floor ((si : ℚ) / dt)).toNat

/-- The simulation loop body (traffic_simulator.cpp:113-126), fuel-indexed for
structural recursion; the fuel is a termination bound while the source's loop
condition `t < endT` is still tested each iteration, so with fuel
`numSimSteps dt t endT` the trace is exactly the loop's.  Each iteration:
`cuda_simulate`, increment step counter, advance time, then checkpoint when
`steps % I == 0` (`cuda_get_data` followed by the two snapshot writes at the
already-advanced time); when `I = 0` that modulo is undefined behaviour,
modelled as a `fault` ending the trace. -/
def simLoopF (dt endT : ℚ) (I : Nat) : Nat → ℚ → Nat → List Event
  | 0, _, _ => []
  | fuel + 1, t, steps =>
      if t < endT then
        if I = 0 then [Event.cudaSimulate t, Event.fault]
        else
          Event.cudaSimulate t ::
            ((if (steps + 1) % I = 0 then
                [Event.cudaGetData (steps + 1), Event.checkpoint (steps + 1) (t + dt)]
              else [])
              ++ simLoopF dt endT I fuel (t + dt) (steps + 1))
      else []

/-- `TrafficSimulator::simulateInGPU` as an event trace: `init_cuda` first
(traffic_simulator.cpp:92), then the loop, then `finish_cuda`
(traffic_simulator.cpp:128) — the latter is not reached when the loop hit the
undefined modulo. -/
def simulateInGPU (dt startT endT : ℚ) (si : Nat) : List Event :=
  let I := checkpointInterval si dt
  let tr := Event.initCuda :: simLoopF dt endT I (numSimSteps dt startT endT) startT 0
  if Event.fault ∈ tr then tr else tr ++ [Event.finishCuda]

/-- The step numbers at which a trace takes a checkpoint. -/
def checkpointSteps (tr : List Event) : List Nat :=
  tr.filterMap (fun e => match e with | Event.checkpoint s _ => some s | _ => none)

/-- Per-merged-edge aggregate record of the Lanemap (the fields
`TrafficSimulator::save_edges` reads).  The vertex pair is the C++ `vertex[2]`
array; the vehicle counts and the per-period travel-step accumulator are counts
(field types modelled from the spec, the declaring header not being part of the
core source). -/
structure EdgeData where
  vertex : Nat × Nat
  upstream_veh_count : Nat
  downstream_veh_count : Nat
  period_cum_travel_steps : Nat

/-- One CSV row written by `save_edges` (traffic_simulator.cpp:160-162). -/
structure EdgeRecord where
  eid : Nat
  u : Nat
  v : Nat
  upstream_count : Nat
  downstream_count : Nat
  ave_time : ℚ
deriving DecidableEq

/-- The loop body of `save_edges` (traffic_simulator.cpp:148-163) for one
`(mid, eid)` entry of the `mid2eid` mapping: `float ave_time = -1;` then, when
`downstream_veh_count > 0`, `(period_cum_travel_steps / downstream_veh_count) * deltaTime_`
(integer quotient of the two counts, then scaled by the float `deltaTime_`). -/
def edgeRecordOf (dt : ℚ) (edgesData : Nat → EdgeData) (me : Nat × Nat) : EdgeRecord :=
  let edge_data := edgesData me.1
  let ave_time : ℚ :=
    if 0 < edge_data.downstream_veh_count then
      ((edge_data.period_cum_travel_steps / edge_data.downstream_veh_count : Nat) : ℚ) * dt
    else -1
  ⟨me.2, edge_data.vertex.1, edge_data.vertex.2, edge_data.upstream_veh_count,
    edge_data.downstream_veh_count, ave_time⟩

/-- `TrafficSimulator::save_edges` (traffic_simulator.cpp:131-164): one record per
entry of the `mid -> eid` mapping, in its enumeration order. -/
def save_edges (dt : ℚ) (mid2eid : List (Nat × Nat)) (edgesData : Nat → EdgeData) :
    List EdgeRecord :=
  mid2eid.map (edgeRecordOf dt edgesData)

/-- One CSV row written by `save_agents` (traffic_simulator.cpp:194-198).
`ave_speed` is the value of the float expression `agent.cum_v / agent.num_steps`:
with `num_steps == 0` the zero-denominator division yields an undefined numeric
value (NaN/Inf), modelled as `none`; the source has no guard and no sentinel on
this field. -/
structure AgentRecord where
  aid : Nat
  ori : Nat
  dest : Nat
  agent_type : Nat
  status : Nat
  travel_dist : ℚ
  travel_time : ℚ
  ave_speed : Option ℚ
  num_slowdown : Nat
  num_lane_change : Nat
  num_in_queue : Nat

/-- The loop body of `save_agents` (traffic_simulator.cpp:192-198) for agent `i`. -/
def agentRecordOf (dt : ℚ) (i : Nat) (a : Agent) : AgentRecord :=
  { aid := i
    ori := a.init_intersection
    dest := a.end_intersection
    agent_type := a.agent_type
    status := a.active
    travel_dist := a.cum_length
    travel_time := (a.num_steps : ℚ) * dt
    ave_speed := if a.num_steps = 0 then none else some (a.cum_v / (a.num_steps : ℚ))
    num_slowdown := a.slow_down_steps
    num_lane_change := a.num_lane_change
    num_in_queue := a.num_steps_in_queue }

/-- `TrafficSimulator::save_agents` (traffic_simulator.cpp:166-200): one record per
agent, indexed by position. -/
def save_agents (dt : ℚ) (agents : List Agent) : List AgentRecord :=
  agents.enum.map (fun ia => agentRecordOf dt ia.1 ia.2)

/-- The host-side state the snapshot writers can see: the agent population, the
per-merged-edge aggregate array, the `mid -> eid` mapping and `deltaTime_`. -/
structure SimState where
  agents : List Agent
  edgesData : Nat → EdgeData
  mid2eid : List (Nat × Nat)
  deltaTime : ℚ

/-- `save_edges` with the host state threaded through each loop iteration (each
iteration reads the current state, emits a record, and leaves the state as the
source leaves it). -/
def save_edges_run (st : SimState) : List EdgeRecord × SimState :=
  st.mid2eid.foldl
    (fun acc me => (acc.1 ++ [edgeRecordOf acc.2.deltaTime acc.2.edgesData me], acc.2))
    ([], st)

/-- `save_agents` with the host state threaded through each loop iteration. -/
def save_agents_run (st : SimState) : List AgentRecord × SimState :=
  st.agents.enum.foldl
    (fun acc ia => (acc.1 ++ [agentRecordOf acc.2.deltaTime ia.1 ia.2], acc.2))
    ([], st)

/-- One checkpoint write as performed inside the simulation loop
(traffic_simulator.cpp:123-124): `save_edges` then `save_agents`, threading the
host state. -/
def snapshot_run (st : SimState) : (List EdgeRecord × List AgentRecord) × SimState :=
  let er := save_edges_run st
  let ar := save_agents_run er.2
  ((er.1, ar.1), ar.2)

/-- The agent index a warning names. -/
def wIndex : Warning → Nat
  | Warning.longRoute i _ => i
  | Warning.noRoute i => i

/-- Network of the spec's end-to-end scenario: vertices 0..3, edges
(0,1), (1,2), (2,3); the graph-edge id of (u, u+1) is u. -/
def exNet : Network :=
  { edge_id := fun u _ => u, edge_vertices := fun e => (e, e + 1) }

/-- The scenario's `eid -> mid` mapping: graph edges 0,1,2 map to merged ids 10,11,12. -/
def exE2m : Nat → Nat := fun e => e + 10

/-- The scenario's inverse `mid -> eid` mapping. -/
def exM2e : Nat → Nat := fun m => m - 10

/-- A freshly created agent (route buffer empty, statistics zero), origin 0,
destination 3. -/
def exAgent : Agent :=
  { init_intersection := 0, end_intersection := 3, agent_type := 0, active := 0,
    route := fun _ => 0, route_size := 0, cum_length := 0, cum_v := 0,
    num_steps := 0, slow_down_steps := 0, num_lane_change := 0, num_steps_in_queue := 0 }

/-- A two-merged-edge aggregate array: merged edge 0 has seen no downstream
vehicle, merged edge 1 has seen 2 downstream vehicles over 6 cumulative travel
steps. -/
def exEd : Nat → EdgeData :=
  fun m => if m = 0 then ⟨(0, 1), 3, 0, 7⟩ else ⟨(1, 2), 4, 2, 6⟩

/-- An ordered `mid -> eid` enumeration for the two merged edges above. -/
def exM2eList : List (Nat × Nat) := [(0, 5), (1, 6)]

/-! ### Lemmas about the route-assignment fold -/

lemma appendMid_route_size (a : Agent) (m : Nat) :
    (appendMid a m).route_size = a.route_size + 1 := rfl

lemma foldl_appendMid_route_size (g : Nat × Nat → Nat) :
    ∀ (pairs : List (Nat × Nat)) (a : Agent),
      (pairs.foldl (fun acc uv => appendMid acc (g uv)) a).route_size
        = a.route_size + pairs.length := by
  intro pairs
  induction pairs with
  | nil => intro a; simp
  | cons p ps ih =>
      intro a
      simp only [List.foldl_cons, ih, appendMid_route_size, List.length_cons]
      omega

lemma foldl_appendMid_route_lt (g : Nat × Nat → Nat) :
    ∀ (pairs : List (Nat × Nat)) (a : Agent) (k : Nat), k < a.route_size →
      (pairs.foldl (fun acc uv => appendMid acc (g uv)) a).route k = a.route k := by
  intro pairs
  induction pairs with
  | nil => intro a k _; rfl
  | cons p ps ih =>
      intro a k hk
      simp only [List.foldl_cons]
      rw [ih (appendMid a (g p)) k (by simp [appendMid_route_size]; omega)]
      simp only [appendMid]
      exact Function.update_noteq (by omega) _ _

lemma foldl_appendMid_route_get (g : Nat × Nat → Nat) :
    ∀ (pairs : List (Nat × Nat)) (a : Agent) (j : Nat) (hj : j < pairs.length),
      (pairs.foldl (fun acc uv => appendMid acc (g uv)) a).route (a.route_size + j)
        = g (pairs.get ⟨j, hj⟩) := by
  intro pairs
  induction pairs with
  | nil => intro a j hj; simp at hj
  | cons p ps ih =>
      intro a j hj
      cases j with
      | zero =>
          simp only [List.foldl_cons]
          rw [foldl_appendMid_route_lt g ps (appendMid a (g p)) (a.route_size + 0)
            (by simp [appendMid_route_size])]
          simp [appendMid]
      | succ j =>
          have hj2 : j < ps.length := by simpa using Nat.lt_of_succ_lt_succ hj
          have := ih (appendMid a (g p)) j hj2
          simp only [appendMid_route_size] at this
          have harith : a.route_size + (j + 1) = a.route_size + 1 + j := by omega
          simp only [List.foldl_cons, harith, this, List.get_cons_succ]

lemma writeRoute_route_size (net : Network) (e2m : Nat → Nat) (path : List Nat) (a : Agent) :
    (writeRoute net e2m path a).route_size = a.route_size + (path.zip path.tail).length := by
  simpa [writeRoute] using
    foldl_appendMid_route_size (fun uv => e2m (net.edge_id uv.1 uv.2)) (path.zip path.tail) a

lemma writeRoute_route_get (net : Network) (e2m : Nat → Nat) (path : List Nat) (a : Agent)
    (j : Nat) (hj : j < (path.zip path.tail).length) :
    (writeRoute net e2m path a).route (a.route_size + j)
      = e2m (net.edge_id ((path.zip path.tail).get ⟨j, hj⟩).1
                          ((path.zip path.tail).get ⟨j, hj⟩).2) := by
  simpa [writeRoute] using
    foldl_appendMid_route_get (fun uv => e2m (net.edge_id uv.1 uv.2)) (path.zip path.tail) a j hj

/-! ### Lemmas about the per-agent loop -/

lemma routeLoop_fst_get? (net : Network) (e2m : Nat → Nat) :
    ∀ (seq : List (List Nat)) (start : Nat) (agents : List Agent) (i : Nat),
      ((routeLoop net e2m start seq agents).1.get? i)
        = (agents.get? i).map (fun a =>
            match seq.get? i with
            | some p => (processAgent net e2m (start + i) p a).1
            | none => a) := by
  intro seq
  induction seq with
  | nil =>
      intro start agents i
      simp [routeLoop]
  | cons p ps ih =>
      intro start agents i
      cases agents with
      | nil => simp [routeLoop]
      | cons a as =>
          cases i with
          | zero => simp [routeLoop]
          | succ i =>
              have := ih (start + 1) as i
              simp only [routeLoop, List.get?_cons_succ, this]
              have harith : start + 1 + i = start + (i + 1) := by omega
              rw [harith]

lemma processAgent_snd (net : Network) (e2m : Nat → Nat) (i : Nat) (p : List Nat)
    (a : Agent) :
    (processAgent net e2m i p a).2
      = (if 100 < p.length then [Warning.longRoute i p.length] else [])
        ++ (if p.length = 0 then [Warning.noRoute i] else []) := by
  simp only [processAgent]
  split_ifs <;> simp

lemma processAgent_wIndex (net : Network) (e2m : Nat → Nat) (i : Nat) (p : List Nat)
    (a : Agent) : ∀ w ∈ (processAgent net e2m i p a).2, wIndex w = i := by
  intro w hw
  rw [processAgent_snd] at hw
  simp only [List.mem_append] at hw
  rcases hw with h | h
  · by_cases hc : 100 < p.length
    · rw [if_pos hc] at h; simp at h; subst h; rfl
    · rw [if_neg hc] at h; simp at h
  · by_cases hc : p.length = 0
    · rw [if_pos hc] at h; simp at h; subst h; rfl
    · rw [if_neg hc] at h; simp at h

lemma routeLoop_wIndex (net : Network) (e2m : Nat → Nat) :
    ∀ (seq : List (List Nat)) (start : Nat) (agents : List Agent) (w : Warning),
      w ∈ (routeLoop net e2m start seq agents).2 → start ≤ wIndex w := by
  intro seq
  induction seq with
  | nil => intro start agents w hw; simp [routeLoop] at hw
  | cons p ps ih =>
      intro start agents w hw
      cases agents with
      | nil => simp [routeLoop] at hw
      | cons a as =>
          simp only [routeLoop, List.mem_append] at hw
          rcases hw with h | h
          · exact le_of_eq (processAgent_wIndex net e2m start p a w h).symm
          · have := ih (start + 1) as w h
            omega

lemma routeLoop_count_noRoute (net : Network) (e2m : Nat → Nat) :
    ∀ (seq : List (List Nat)) (start : Nat) (agents : List Agent) (i : Nat)
      (p : List Nat) (a : Agent), seq.get? i = some p → agents.get? i = some a →
      ((routeLoop net e2m start seq agents).2.count (Warning.noRoute (start + i)))
        = ((processAgent net e2m (start + i) p a).2.count (Warning.noRoute (start + i))) := by
  intro seq
  induction seq with
  | nil => intro start agents i p a hp _; simp at hp
  | cons q qs ih =>
      intro start agents i p a hp ha
      cases agents with
      | nil => simp at ha
      | cons b bs =>
          simp only [routeLoop, List.count_append]
          cases i with
          | zero =>
              simp only [List.get?_cons_zero, Option.some.injEq] at hp ha
              subst hp; subst ha
              simp only [Nat.add_zero]
              have hz : (routeLoop net e2m (start + 1) qs bs).2.count
                  (Warning.noRoute start) = 0 := by
                rw [List.count_eq_zero]
                intro hmem
                have := routeLoop_wIndex net e2m qs (start + 1) bs _ hmem
                simp only [wIndex] at this
                omega
              rw [hz]
              omega
          | succ i =>
              simp only [List.get?_cons_succ] at hp ha
              have hz : ((processAgent net e2m start q b).2.count
                  (Warning.noRoute (start + (i + 1)))) = 0 := by
                rw [List.count_eq_zero]
                intro hmem
                have := processAgent_wIndex net e2m start q b _ hmem
                simp only [wIndex] at this
                omega
              rw [hz]
              have := ih (start + 1) bs i p a hp ha
              have harith : start + 1 + i = start + (i + 1) := by omega
              rw [harith] at this
              omega

lemma zip_tail_length (p : List Nat) : (p.zip p.tail).length = p.length - 1 := by
  cases p with
  | nil => rfl
  | cons x xs => simp [List.length_zip]

lemma processAgent_fst_of_ne_nil (net : Network) (e2m : Nat → Nat) (i : Nat)
    (p : List Nat) (a : Agent) (hp : ¬ p.length = 0) :
    (processAgent net e2m i p a).1 = writeRoute net e2m p a := by
  simp [processAgent, hp]

/-- Claim C1: for an agent whose routing result is a non-empty vertex sequence,
mapping each written route entry back through the `mid -> eid` inverse and
resolving the graph edge to its ordered vertex pair reconstructs exactly the
consecutive vertex pairs of the path.  The hypotheses are the collaborators'
interface invariants: the buffer starts empty, `mid2eid` inverts `eid2mid`
on the edges of the path, and the network's edge resolution inverts
`edge_id` there. -/
theorem route_roundtrip
    (net : Network) (e2m m2e : Nat → Nat) (seq : List (List Nat)) (agents : List Agent)
    (i : Nat) (p : List Nat) (a : Agent)
    (hseq : seq.get? i = some p)
    (hag : agents.get? i = some a)
    (hp : p ≠ [])
    (ha : a.route_size = 0)
    (hinv : ∀ uv ∈ p.zip p.tail, m2e (e2m (net.edge_id uv.1 uv.2)) = net.edge_id uv.1 uv.2)
    (hres : ∀ uv ∈ p.zip p.tail, net.edge_vertices (net.edge_id uv.1 uv.2) = uv) :
    ((route_finding_ net e2m seq agents).1.get? i).map
        (fun a2 => (List.range (p.length - 1)).map (fun j => net.edge_vertices (m2e (a2.route j))))
      = some (p.zip p.tail) := by
  have hplen : ¬ p.length = 0 := by simpa [List.length_eq_zero] using hp
  rw [route_finding_, routeLoop_fst_get? net e2m seq 0 agents i, hag]
  simp only [Option.map_some', hseq]
  rw [processAgent_fst_of_ne_nil net e2m (0 + i) p a hplen]
  congr 1
  apply List.ext_get
  · simp [zip_tail_length]
  · intro n h1 h2
    have hn : n < (p.zip p.tail).length := by
      rw [zip_tail_length]
      simpa using h1
    have hw := writeRoute_route_get net e2m p a n hn
    rw [ha, Nat.zero_add] at hw
    simp only [List.get_eq_getElem] at hw
    have hmem : (p.zip p.tail)[n] ∈ p.zip p.tail := List.getElem_mem hn
    simp only [List.get_eq_getElem, List.getElem_map, List.getElem_range, hw, hinv _ hmem]
    exact hres _ hmem

/-- Claim C1 witness: the spec's end-to-end scenario — path [0,1,2,3], merged ids
10,11,12 — rebuilt into the pairs (0,1), (1,2), (2,3). -/
theorem route_roundtrip_witness :
    ((route_finding_ exNet exE2m [[0, 1, 2, 3]] [exAgent]).1.get? 0).map
        (fun a2 => (List.range (([0, 1, 2, 3] : List Nat).length - 1)).map
          (fun j => exNet.edge_vertices (exM2e (a2.route j))))
      = some (([0, 1, 2, 3] : List Nat).zip ([0, 1, 2, 3] : List Nat).tail) :=
  route_roundtrip exNet exE2m exM2e [[0, 1, 2, 3]] [exAgent] 0 [0, 1, 2, 3] exAgent
    rfl rfl (by decide) rfl (by decide) (by decide)

/-- Claim C2 (code_bug evidence): the append at traffic_simulator.cpp:53 is not
bounds-checked.  With the spec's fixed route-buffer capacity `C` instantiated at 2,
an agent whose path has 3 edges ends with `route_size = 3 > 2`, the third append
having written buffer index 2 (= C, past the last valid index of a capacity-2
buffer would be indices 0..1), and no warning, rejection or abort is produced
(the path is under the soft 100-edge threshold, so not even the informal warning
fires). -/
theorem route_append_unchecked :
    ((processAgent exNet exE2m 0 [0, 1, 2, 3] exAgent).1.route_size = 3)
    ∧ (2 < (processAgent exNet exE2m 0 [0, 1, 2, 3] exAgent).1.route_size)
    ∧ ((processAgent exNet exE2m 0 [0, 1, 2, 3] exAgent).1.route 2 = 12)
    ∧ ((processAgent exNet exE2m 0 [0, 1, 2, 3] exAgent).2 = []) := by
  refine ⟨by decide, by decide, by decide, by decide⟩

/-- Claim C4 counterexample: on the spec's own scenario, running route assignment
a second time on the once-assigned population does not reproduce the route
buffers — `route_size` doubles from 3 to 6, because `route_finding_` appends at
the current `route_size` without ever resetting it. -/
theorem route_finding_not_idempotent :
    (((route_finding_ exNet exE2m [[0, 1, 2, 3]]
          ((route_finding_ exNet exE2m [[0, 1, 2, 3]] [exAgent]).1)).1.map Agent.route_size)
        = [6])
    ∧ (((route_finding_ exNet exE2m [[0, 1, 2, 3]] [exAgent]).1.map Agent.route_size)
        = [3]) := by
  refine ⟨by decide, by decide⟩

/-- Claim C4 amended: re-running route assignment on an unmodified population is
not idempotent; it appends each non-empty route a second time, so an agent whose
path has n >= 1 edges ends with `route_size = 2 n` after two runs versus `n`
after one. -/
theorem route_finding_rerun_appends
    (net : Network) (e2m : Nat → Nat) (seq : List (List Nat)) (agents : List Agent)
    (i : Nat) (p : List Nat) (a : Agent)
    (hseq : seq.get? i = some p)
    (hag : agents.get? i = some a)
    (hp : p ≠ [])
    (ha : a.route_size = 0) :
    (((route_finding_ net e2m seq
          ((route_finding_ net e2m seq agents).1)).1.get? i).map Agent.route_size
        = some (2 * (p.length - 1)))
    ∧ (((route_finding_ net e2m seq agents).1.get? i).map Agent.route_size
        = some (p.length - 1)) := by
  have hplen : ¬ p.length = 0 := by simpa [List.length_eq_zero] using hp
  have h1 : (route_finding_ net e2m seq agents).1.get? i
      = some (writeRoute net e2m p a) := by
    rw [route_finding_, routeLoop_fst_get? net e2m seq 0 agents i, hag]
    simp only [Option.map_some', hseq]
    rw [processAgent_fst_of_ne_nil net e2m (0 + i) p a hplen]
  have hsize1 : (writeRoute net e2m p a).route_size = p.length - 1 := by
    rw [writeRoute_route_size, ha, zip_tail_length, Nat.zero_add]
  constructor
  · rw [route_finding_, routeLoop_fst_get? net e2m seq 0
      ((route_finding_ net e2m seq agents).1) i, h1]
    simp only [Option.map_some', hseq]
    rw [processAgent_fst_of_ne_nil net e2m (0 + i) p _ hplen]
    rw [writeRoute_route_size, hsize1, zip_tail_length]
    have : p.length - 1 + (p.length - 1) = 2 * (p.length - 1) := by omega
    rw [this]
  · rw [h1]
    simp only [Option.map_some']
    rw [hsize1]

/-- Claim C4 amended witness: the scenario path has 3 edges; two runs give
`route_size` 6, one run gives 3. -/
theorem route_finding_rerun_appends_witness :
    (((route_finding_ exNet exE2m [[0, 1, 2, 3]]
          ((route_finding_ exNet exE2m [[0, 1, 2, 3]] [exAgent]).1)).1.get? 0).map
        Agent.route_size = some (2 * (([0, 1, 2, 3] : List Nat).length - 1)))
    ∧ (((route_finding_ exNet exE2m [[0, 1, 2, 3]] [exAgent]).1.get? 0).map
        Agent.route_size = some (([0, 1, 2, 3] : List Nat).length - 1)) :=
  route_finding_rerun_appends exNet exE2m [[0, 1, 2, 3]] [exAgent] 0 [0, 1, 2, 3] exAgent
    rfl rfl (by decide) rfl

/-- Claim C8: an agent whose routing result is empty keeps its (empty) route
buffer untouched — `route_size` stays 0 and no entry is written — and the
"has no route" warning naming the agent's index is recorded exactly once. -/
theorem no_route_agent_untouched_warned_once
    (net : Network) (e2m : Nat → Nat) (seq : List (List Nat)) (agents : List Agent)
    (i : Nat) (a : Agent)
    (hseq : seq.get? i = some [])
    (hag : agents.get? i = some a)
    (ha : a.route_size = 0) :
    ((route_finding_ net e2m seq agents).1.get? i = some a)
    ∧ a.route_size = 0
    ∧ ((route_finding_ net e2m seq agents).2.count (Warning.noRoute i) = 1) := by
  refine ⟨?_, ha, ?_⟩
  · rw [route_finding_, routeLoop_fst_get? net e2m seq 0 agents i, hag]
    simp only [Option.map_some', hseq]
    simp [processAgent]
  · have hc := routeLoop_count_noRoute net e2m seq 0 agents i [] a hseq hag
    simp only [Nat.zero_add] at hc
    rw [route_finding_, hc, processAgent_snd]
    simp

/-- Claim C8 witness: one agent, empty routing result. -/
theorem no_route_agent_untouched_warned_once_witness :
    ((route_finding_ exNet exE2m [[]] [exAgent]).1.get? 0 = some exAgent)
    ∧ exAgent.route_size = 0
    ∧ ((route_finding_ exNet exE2m [[]] [exAgent]).2.count (Warning.noRoute 0) = 1) :=
  no_route_agent_untouched_warned_once exNet exE2m [[]] [exAgent] 0 exAgent rfl rfl rfl

/-- Claim C9: an agent whose routing result is a single-vertex path (origin equal
to destination) is left untouched — `route_size` stays 0, the edge-resolution
loop body never runs (no vertex pair is resolved), and no "no route" warning is
recorded for it. -/
theorem trivial_path_agent_untouched
    (net : Network) (e2m : Nat → Nat) (seq : List (List Nat)) (agents : List Agent)
    (i : Nat) (v : Nat) (a : Agent)
    (hseq : seq.get? i = some [v])
    (hag : agents.get? i = some a)
    (ha : a.route_size = 0) :
    ((route_finding_ net e2m seq agents).1.get? i = some a)
    ∧ a.route_size = 0
    ∧ resolvedEdgePairs [v] = []
    ∧ ((route_finding_ net e2m seq agents).2.count (Warning.noRoute i) = 0) := by
  refine ⟨?_, ha, by simp [resolvedEdgePairs], ?_⟩
  · rw [route_finding_, routeLoop_fst_get? net e2m seq 0 agents i, hag]
    simp only [Option.map_some', hseq]
    simp [processAgent, writeRoute]
  · have hc := routeLoop_count_noRoute net e2m seq 0 agents i [v] a hseq hag
    simp only [Nat.zero_add] at hc
    rw [route_finding_, hc, processAgent_snd]
    simp

/-- Claim C9 witness: one agent with the degenerate single-vertex path [0]. -/
theorem trivial_path_agent_untouched_witness :
    ((route_finding_ exNet exE2m [[0]] [exAgent]).1.get? 0 = some exAgent)
    ∧ exAgent.route_size = 0
    ∧ resolvedEdgePairs [0] = []
    ∧ ((route_finding_ exNet exE2m [[0]] [exAgent]).2.count (Warning.noRoute 0) = 0) :=
  trivial_path_agent_untouched exNet exE2m [[0]] [exAgent] 0 0 exAgent rfl rfl rfl

/-! ### Lemmas about the simulation loop -/

lemma numSimSteps_eq_zero_iff (dt t endT : ℚ) (hdt : 0 < dt) :
    numSimSteps dt t endT = 0 ↔ endT ≤ t := by
  unfold numSimSteps
  rw [Int.toNat_eq_zero]
  constructor
  · intro h
    have hle : (endT - t) / dt ≤ 0 := by
      have h2 := Int.ceil_le.mp h
      simpa using h2
    rcases div_nonpos_iff.mp hle with ⟨h1, h2⟩ | ⟨h1, h2⟩
    · linarith
    · linarith
  · intro h
    apply Int.ceil_le.mpr
    simp only [Int.cast_zero]
    exact div_nonpos_iff.mpr (Or.inr ⟨by linarith, le_of_lt hdt⟩)

lemma numSimSteps_succ (dt t endT : ℚ) (hdt : 0 < dt) (ht : t < endT) :
    numSimSteps dt t endT = numSimSteps dt (t + dt) endT + 1 := by
  have hne : dt ≠ 0 := ne_of_gt hdt
  unfold numSimSteps
  have key : (endT - (t + dt)) / dt = (endT - t) / dt - 1 := by
    field_simp
    ring
  rw [key, Int.ceil_sub_one]
  have hpos : 0 < (endT - t) / dt := div_pos (by linarith) hdt
  have hceil : 1 ≤ ⌈(endT - t) / dt⌉ := Int.ceil_pos.mpr hpos
  omega

lemma checkpointSteps_nil : checkpointSteps [] = [] := rfl

lemma checkpointSteps_cons_init (l : List Event) :
    checkpointSteps (Event.initCuda :: l) = checkpointSteps l := rfl

lemma checkpointSteps_cons_sim (t : ℚ) (l : List Event) :
    checkpointSteps (Event.cudaSimulate t :: l) = checkpointSteps l := rfl

lemma checkpointSteps_cons_getData (s : Nat) (l : List Event) :
    checkpointSteps (Event.cudaGetData s :: l) = checkpointSteps l := rfl

lemma checkpointSteps_cons_checkpoint (s : Nat) (t : ℚ) (l : List Event) :
    checkpointSteps (Event.checkpoint s t :: l) = s :: checkpointSteps l := rfl

lemma checkpointSteps_append (l1 l2 : List Event) :
    checkpointSteps (l1 ++ l2) = checkpointSteps l1 ++ checkpointSteps l2 := by
  simp [checkpointSteps]

lemma simLoopF_no_fault (dt endT : ℚ) (I : Nat) (hI : I ≠ 0) :
    ∀ (n : Nat) (t : ℚ) (s : Nat), Event.fault ∉ simLoopF dt endT I n t s := by
  intro n
  induction n with
  | zero => intro t s; simp [simLoopF]
  | succ n ih =>
      intro t s
      simp only [simLoopF, if_neg hI]
      by_cases ht : t < endT
      · rw [if_pos ht]
        intro hmem
        simp only [List.mem_cons, List.mem_append] at hmem
        rcases hmem with h | h | h
        · exact Event.noConfusion h
        · split_ifs at h <;> simp at h
        · exact ih (t + dt) (s + 1) h
      · rw [if_neg ht]
        simp

lemma simulateInGPU_eq (dt startT endT : ℚ) (si : Nat)
    (hI : checkpointInterval si dt ≠ 0) :
    simulateInGPU dt startT endT si
      = Event.initCuda ::
          simLoopF dt endT (checkpointInterval si dt) (numSimSteps dt startT endT) startT 0
          ++ [Event.finishCuda] := by
  have hnf : Event.fault ∉
      Event.initCuda ::
        simLoopF dt endT (checkpointInterval si dt) (numSimSteps dt startT endT) startT 0 := by
    intro h
    rcases List.mem_cons.mp h with h | h
    · exact Event.noConfusion h
    · exact simLoopF_no_fault dt endT _ hI _ _ _ h
  simp only [simulateInGPU]
  rw [if_neg hnf]

lemma checkpointSteps_simLoopF (dt endT : ℚ) (I : Nat) (hdt : 0 < dt) (hI : I ≠ 0) :
    ∀ (n : Nat) (t : ℚ) (s : Nat), n = numSimSteps dt t endT →
      checkpointSteps (simLoopF dt endT I n t s)
        = ((List.range n).map (fun k => s + k + 1)).filter (fun m => m % I = 0) := by
  intro n
  induction n with
  | zero => intro t s _; simp [simLoopF, checkpointSteps]
  | succ n ih =>
      intro t s hn
      have ht : t < endT := by
        by_contra hcon
        push_neg at hcon
        have := (numSimSteps_eq_zero_iff dt t endT hdt).mpr hcon
        omega
      have hn2 : n = numSimSteps dt (t + dt) endT := by
        have := numSimSteps_succ dt t endT hdt ht
        omega
      have hrec := ih (t + dt) (s + 1) hn2
      simp only [simLoopF, if_neg hI, if_pos ht]
      rw [List.range_succ_eq_map, List.map_cons, List.map_map]
      have hcomp : ((fun k => s + k + 1) ∘ Nat.succ) = (fun k : Nat => s + 1 + k + 1) := by
        funext k
        simp only [Function.comp]
        omega
      rw [hcomp, List.filter_cons]
      by_cases hc : (s + 1) % I = 0
      · rw [if_pos hc]
        simp only [List.cons_append, List.nil_append, checkpointSteps_cons_sim,
          checkpointSteps_cons_getData, checkpointSteps_cons_checkpoint, hrec]
        simp [hc]
      · rw [if_neg hc]
        simp only [List.nil_append, checkpointSteps_cons_sim, hrec]
        simp [hc]

lemma length_filter_multiples (I : Nat) :
    ∀ N : Nat,
      (((List.range N).map (fun k => k + 1)).filter (fun m => m % I = 0)).length = N / I := by
  intro N
  induction N with
  | zero => simp
  | succ N ih =>
      rw [List.range_succ, List.map_append, List.filter_append, List.length_append, ih,
        Nat.succ_div]
      by_cases hc : (N + 1) % I = 0
      · have hdvd : I ∣ N + 1 := Nat.dvd_iff_mod_eq_zero.mpr hc
        simp [hc, hdvd]
      · have hdvd : ¬ I ∣ N + 1 := fun h => hc (Nat.dvd_iff_mod_eq_zero.mp h)
        simp [hc, hdvd]

lemma checkpointInterval_two_one : checkpointInterval 2 1 = 2 := by
  unfold checkpointInterval
  norm_num
  rfl

lemma checkpointInterval_zero_one : checkpointInterval 0 1 = 0 := by
  unfold checkpointInterval
  norm_num

lemma numSimSteps_one_zero_one : numSimSteps 1 0 1 = 1 := by
  unfold numSimSteps
  norm_num

/-- Claim C3: with a positive time step and a positive checkpoint interval
`I = floor(save_interval / deltaTime)`, the driver checkpoints exactly at the steps
that are multiples of `I` (a checkpoint is a `cuda_get_data` retrieve followed by
the edge and agent snapshot writes), and over a run of `N` steps the number of
checkpoints is `N / I` — in particular step `N` itself checkpoints exactly when
`I` divides `N`. -/
theorem checkpoint_cadence (dt startT endT : ℚ) (si : Nat)
    (hdt : 0 < dt) (hI : 0 < checkpointInterval si dt) :
    (∀ m, m ∈ checkpointSteps (simulateInGPU dt startT endT si)
        ↔ (1 ≤ m ∧ m ≤ numSimSteps dt startT endT ∧ m % checkpointInterval si dt = 0))
    ∧ (checkpointSteps (simulateInGPU dt startT endT si)).length
        = numSimSteps dt startT endT / checkpointInterval si dt := by
  have hI0 : checkpointInterval si dt ≠ 0 := Nat.pos_iff_ne_zero.mp hI
  have hcp : checkpointSteps (simulateInGPU dt startT endT si)
      = ((List.range (numSimSteps dt startT endT)).map (fun k : Nat => k + 1)).filter
          (fun m => m % checkpointInterval si dt = 0) := by
    rw [simulateInGPU_eq dt startT endT si hI0, checkpointSteps_append,
      checkpointSteps_cons_init,
      checkpointSteps_simLoopF dt endT _ hdt hI0 (numSimSteps dt startT endT) startT 0 rfl]
    have hfun : (fun k : Nat => 0 + k + 1) = (fun k : Nat => k + 1) := by
      funext k
      omega
    simp [checkpointSteps, hfun]
  constructor
  · intro m
    rw [hcp]
    simp only [List.mem_filter, List.mem_map, List.mem_range, decide_eq_true_eq]
    constructor
    · rintro ⟨⟨k, hk, rfl⟩, hmod⟩
      exact ⟨by omega, by omega, hmod⟩
    · rintro ⟨h1, h2, h3⟩
      exact ⟨⟨m - 1, by omega, by omega⟩, h3⟩
  · rw [hcp, length_filter_multiples]

/-- Claim C3 witness: deltaTime 1, start 0, end 4, save interval 2: interval 2,
4 steps, 2 checkpoints. -/
theorem checkpoint_cadence_witness :
    ((0:ℚ) < 1) ∧ 0 < checkpointInterval 2 1
    ∧ (checkpointSteps (simulateInGPU 1 0 4 2)).length
        = numSimSteps 1 0 4 / checkpointInterval 2 1 :=
  ⟨by norm_num, by rw [checkpointInterval_two_one]; norm_num,
    (checkpoint_cadence 1 0 4 2 (by norm_num)
      (by rw [checkpointInterval_two_one]; norm_num)).2⟩

/-- Claim C7 (code_bug evidence): with save_interval 0 (deltaTime 1, start 0,
end 1) the checkpoint interval computes to 0; the driver nevertheless performs
`init_cuda` (allocating device state), runs the first `cuda_simulate` step, and
only then evaluates `simulations_steps % num_save_steps` — modulo by zero,
undefined behaviour — rather than failing fatally at startup before device
initialization. -/
theorem zero_interval_faults_after_init :
    simulateInGPU 1 0 1 0 = [Event.initCuda, Event.cudaSimulate 0, Event.fault] := by
  simp only [simulateInGPU, checkpointInterval_zero_one, numSimSteps_one_zero_one]
  rw [show simLoopF 1 1 0 1 0 0 = [Event.cudaSimulate 0, Event.fault] by
    simp only [simLoopF]
    rw [if_pos (by norm_num : (0:ℚ) < 1)]
    simp]
  simp

/-! ### Snapshot writer claims -/

/-- Claim C5: every per-merged-edge snapshot record carries the sentinel -1 as
average travel time when the edge's downstream vehicle count is 0, and
`(s / k) * deltaTime` (the integer quotient of the cumulative travel-step
accumulator by the count, scaled by deltaTime) when the count is k > 0. -/
theorem edge_ave_time_sentinel
    (dt : ℚ) (m2e : List (Nat × Nat)) (ed : Nat → EdgeData) (mid eid : Nat)
    (hmem : (mid, eid) ∈ m2e) :
    (edgeRecordOf dt ed (mid, eid) ∈ save_edges dt m2e ed)
    ∧ ((ed mid).downstream_veh_count = 0 → (edgeRecordOf dt ed (mid, eid)).ave_time = -1)
    ∧ (∀ k, (ed mid).downstream_veh_count = k → 0 < k →
        (edgeRecordOf dt ed (mid, eid)).ave_time
          = (((ed mid).period_cum_travel_steps / k : Nat) : ℚ) * dt) := by
  refine ⟨List.mem_map_of_mem _ hmem, ?_, ?_⟩
  · intro h0
    simp [edgeRecordOf, h0]
  · intro k hk hkpos
    subst hk
    simp only [edgeRecordOf]
    rw [if_pos hkpos]

/-- Claim C5 witness: merged edge 0 (downstream count 0) gets the sentinel -1;
merged edge 1 (downstream count 2, 6 cumulative steps, deltaTime 2) gets
(6 / 2) * 2. -/
theorem edge_ave_time_sentinel_witness :
    ((0, 5) ∈ exM2eList) ∧ ((1, 6) ∈ exM2eList)
    ∧ (edgeRecordOf 2 exEd (0, 5)).ave_time = -1
    ∧ (edgeRecordOf 2 exEd (1, 6)).ave_time
        = (((exEd 1).period_cum_travel_steps / 2 : Nat) : ℚ) * 2 :=
  ⟨by decide, by decide,
    (edge_ave_time_sentinel 2 exM2eList exEd 0 5 (by decide)).2.1 rfl,
    (edge_ave_time_sentinel 2 exM2eList exEd 1 6 (by decide)).2.2 2 rfl (by decide)⟩

/-- Claim C6 (code_bug evidence): `save_agents` computes the average-speed field
as `agent.cum_v / agent.num_steps` (traffic_simulator.cpp:197) with no guard: for
an agent with `num_steps = 0` the zero-denominator float division propagates an
undefined numeric value (modelled `none`) into the snapshot record — there is no
sentinel and no defined "no data" marker in the source. -/
theorem ave_speed_division_unguarded :
    (exAgent.num_steps = 0) ∧ (agentRecordOf 1 0 exAgent).ave_speed = none :=
  ⟨rfl, rfl⟩

/-! ### Frame property of the snapshot writers -/

lemma foldl_const_snd {α β γ : Type} (f : List β × γ → α → List β) :
    ∀ (l : List α) (acc : List β × γ),
      (l.foldl (fun a x => (f a x, a.2)) acc).2 = acc.2 := by
  intro l
  induction l with
  | nil => intro acc; rfl
  | cons x xs ih =>
      intro acc
      simp only [List.foldl_cons]
      exact ih _

lemma save_edges_run_snd (st : SimState) : (save_edges_run st).2 = st := by
  unfold save_edges_run
  exact foldl_const_snd _ _ _

lemma save_agents_run_snd (st : SimState) : (save_agents_run st).2 = st := by
  unfold save_agents_run
  exact foldl_const_snd _ _ _

/-- Claim C10: writing a snapshot (save_edges then save_agents) leaves the
host-side state unchanged: the agent population, the per-merged-edge aggregate
records, the `mid -> eid` mapping (and deltaTime) all read back identically
after the snapshot. -/
theorem snapshot_frame (st : SimState) :
    ((snapshot_run st).2.agents = st.agents)
    ∧ (∀ m, (snapshot_run st).2.edgesData m = st.edgesData m)
    ∧ ((snapshot_run st).2.mid2eid = st.mid2eid)
    ∧ ((snapshot_run st).2.deltaTime = st.deltaTime) := by
  have h : (snapshot_run st).2 = st := by
    show (save_agents_run (save_edges_run st).2).2 = st
    rw [save_edges_run_snd, save_agents_run_snd]
  rw [h]
  exact ⟨rfl, fun _ => rfl, rfl, rfl⟩

end LC
